import Mathlib

/-!
Verification of the arcgis_scraper core: a shallow embedding of the query
planner (`src/metadata.rs`), the chunk fetcher with its retry loop
(`src/scraping.rs`) and the ordered drain/assembly loop (`src/main.rs`),
together with proofs of the specification's claims about them.
-/

set_option maxHeartbeats 1000000

namespace Arcgis

/-- Model of a `serde_json::Number`, carried at the level of its decimal
rendering: `isFloat` records whether the wire value was a floating literal
and `render` is the exact text `Number::to_string` prints for it. -/
structure JNumber where
  isFloat : Bool
  render : String
deriving DecidableEq

/-- Model of `serde_json::Value`.  Objects are association lists kept sorted
by key, mirroring the default `BTreeMap` backing of `serde_json::Map`. -/
inductive Json where
  | null : Json
  | bool : Bool → Json
  | num : JNumber → Json
  | str : String → Json
  | arr : List Json → Json
  | obj : List (String × Json) → Json

/-- Model of `serde_json::Map::get`. -/
def mapGet (m : List (String × Json)) (k : String) : Option Json :=
  match m with
  | [] => none
  | (k', v) :: rest => if k' = k then some v else mapGet rest k

/-- Model of `serde_json::Map::contains_key`. -/
def mapContains (m : List (String × Json)) (k : String) : Bool :=
  (mapGet m k).isSome

/-- Lexicographic byte order on strings: the `Ord` a Rust
`BTreeMap<String, _>` sorts its keys by. -/
def charsLt : List Char → List Char → Bool
  | [], [] => false
  | [], _ :: _ => true
  | _ :: _, [] => false
  | a :: as, b :: bs =>
    if a.toNat < b.toNat then true
    else if b.toNat < a.toNat then false
    else charsLt as bs

def stringLt (a b : String) : Bool := charsLt a.data b.data

/-- Model of `serde_json::Map::insert`: the backing `BTreeMap` keeps keys sorted. -/
def mapInsert (k : String) (v : Json) : List (String × Json) → List (String × Json)
  | [] => [(k, v)]
  | (k', v') :: rest =>
    if stringLt k k' then (k, v) :: (k', v') :: rest
    else if k = k' then (k, v) :: rest
    else (k', v') :: mapInsert k v rest

/-- Model of `serde_json::Value` indexing by string key: `Null` when the value is not
an object or the key is absent. -/
def Json.index (v : Json) (k : String) : Json :=
  match v with
  | .obj fields => (mapGet fields k).getD .null
  | _ => .null

/-- Model of `Value::as_str`. -/
def Json.asStr : Json → Option String
  | .str s => some s
  | _ => none

/-- Model of `Value::as_object`. -/
def Json.asObject : Json → Option (List (String × Json))
  | .obj fields => some fields
  | _ => none

/-- Model of `Value::as_array`. -/
def Json.asArray : Json → Option (List Json)
  | .arr xs => some xs
  | _ => none

/-- Model of `Value::as_f64`: every JSON number converts. -/
def Json.asF64 : Json → Option JNumber
  | .num n => some n
  | _ => none

/-- The rendering of `Value::from(x)` for the f64 `x` obtained from this
number by `as_f64`: a float keeps its rendering, an integer rendering gains
a trailing `.0` (the rendering of an integral f64). -/
def JNumber.toF64Render (n : JNumber) : String :=
  if n.isFloat then n.render else n.render ++ ".0"

def hexDigit (n : Nat) : Char :=
  if n < 10 then Char.ofNat (48 + n) else Char.ofNat (87 + n)

/-- One character of serde_json's compact string escaping. -/
def escapeChar (c : Char) : String :=
  if c = '"' then "\\\""
  else if c = '\\' then "\\\\"
  else if c = '\x08' then "\\b"
  else if c = '\x0c' then "\\f"
  else if c = '\n' then "\\n"
  else if c = '\r' then "\\r"
  else if c.toNat < 32 then
    "\\u00" ++ String.mk [hexDigit (c.toNat / 16), hexDigit (c.toNat % 16)]
  else String.mk [c]

/-- serde_json's rendering of a JSON string literal. -/
def escapeString (s : String) : String :=
  "\"" ++ String.join (s.data.map escapeChar) ++ "\""

mutual

/-- Model of `serde_json::Value::to_string`: the compact rendering. -/
def jsonRender : Json → String
  | .null => "null"
  | .bool true => "true"
  | .bool false => "false"
  | .num n => n.render
  | .str s => escapeString s
  | .arr xs => "[" ++ renderElems xs ++ "]"
  | .obj fields => "\x7b" ++ renderMembers fields ++ "\x7d"

def renderElems : List Json → String
  | [] => ""
  | [x] => jsonRender x
  | x :: y :: rest => jsonRender x ++ "," ++ renderElems (y :: rest)

def renderMembers : List (String × Json) → String
  | [] => ""
  | [(k, v)] => escapeString k ++ ":" ++ jsonRender v
  | (k, v) :: p :: rest =>
    escapeString k ++ ":" ++ jsonRender v ++ "," ++ renderMembers (p :: rest)

end

/-! ## src/metadata.rs : data model and query planner -/

/-- Model of `RestServiceMetadataError` from src/metadata.rs. -/
inductive RestServiceMetadataError where
  | FieldParsing : String → String → RestServiceMetadataError
  | FieldTypeParsing : String → RestServiceMetadataError
  | MissingKey : String → RestServiceMetadataError
  | MissingOidField : RestServiceMetadataError
deriving DecidableEq

/-- Model of `RestServiceGeometryType` from src/metadata.rs. -/
inductive RestServiceGeometryType where
  | Point | Multipoint | Polyline | Polygon | Envelope | None
deriving DecidableEq

/-- The `Display` impl of `RestServiceGeometryType`. -/
def RestServiceGeometryType.display : RestServiceGeometryType → String
  | .Point => "esriGeometryPoint"
  | .Multipoint => "esriGeometryMultipoint"
  | .Polyline => "esriGeometryPolyline"
  | .Polygon => "esriGeometryPolygon"
  | .Envelope => "esriGeometryEnvelope"
  | .None => "esriGeometryNone"

/-- Model of `RestServiceFieldType` from src/metadata.rs. -/
inductive RestServiceFieldType where
  | Blob | Date | Double | Float | Geometry | GlobalID | GUID | Integer
  | OID | Raster | Single | SmallInteger | String | XML
deriving DecidableEq

/-- Alias avoiding capture by the `RestServiceFieldType.String` constructor
inside that namespace. -/
abbrev Str := String

/-- Model of `RestServiceFieldType::from_str`. -/
def RestServiceFieldType.from_str (field_type : Str) :
    Except RestServiceMetadataError RestServiceFieldType :=
  if field_type = "esriFieldTypeBlob" then .ok .Blob
  else if field_type = "esriFieldTypeDate" then .ok .Date
  else if field_type = "esriFieldTypeDouble" then .ok .Double
  else if field_type = "esriFieldTypeFloat" then .ok .Float
  else if field_type = "esriFieldTypeGeometry" then .ok .Geometry
  else if field_type = "esriFieldTypeGlobalID" then .ok .GlobalID
  else if field_type = "esriFieldTypeGUID" then .ok .GUID
  else if field_type = "esriFieldTypeInteger" then .ok .Integer
  else if field_type = "esriFieldTypeOID" then .ok .OID
  else if field_type = "esriFieldTypeRaster" then .ok .Raster
  else if field_type = "esriFieldTypeSingle" then .ok .Single
  else if field_type = "esriFieldTypeSmallInteger" then .ok .SmallInteger
  else if field_type = "esriFieldTypeString" then .ok .String
  else if field_type = "esriFieldTypeXML" then .ok .XML
  else .error (.FieldTypeParsing
    ("Could not decode the field type of \"" ++ field_type ++ "\""))

/-- Model of `RestServiceField` from src/metadata.rs; the coded-value `HashMap` is an
association list read only through `get`. -/
structure RestServiceField where
  name : String
  field_type : RestServiceFieldType
  «alias» : String
  codes : Option (List (String × String))
deriving DecidableEq

/-- Model of `HashMap::insert`: replace an existing binding, otherwise append. -/
def hashInsert (k v : String) : List (String × String) → List (String × String)
  | [] => [(k, v)]
  | (k', v') :: rest =>
    if k' = k then (k, v) :: rest else (k', v') :: hashInsert k v rest

/-- Model of `HashMap::get`. -/
def hashGet (m : List (String × String)) (k : String) : Option String :=
  match m with
  | [] => none
  | (k', v) :: rest => if k' = k then some v else hashGet rest k

/-- The `for coded_value in coded_values` loop of `parse_domain`; `raw` is
the `codedValues` value used in error messages. -/
def parse_coded_values (raw : Json) :
    List Json → List (String × String) →
    Except RestServiceMetadataError (List (String × String))
  | [], codes => .ok codes
  | coded_value :: rest, codes =>
    match coded_value.asObject with
    | none =>
      .error (.FieldParsing "codedValues value is not an object" (jsonRender raw))
    | some cvo =>
      let codeVal := (Json.obj cvo).index "code"
      let codeRes : Except RestServiceMetadataError String :=
        match codeVal with
        | .num n => .ok n.render
        | .str s => .ok s
        | _ => .error (.FieldParsing "Expected Number or String for code Value"
            (jsonRender codeVal))
      match codeRes with
      | .error e => .error e
      | .ok code =>
        match (Json.obj cvo).index "name" with
        | .str nm => parse_coded_values raw rest (hashInsert code nm codes)
        | _ => .error (.FieldParsing "Expected String for name Value"
            (jsonRender codeVal))

/-- Model of `parse_domain` from src/metadata.rs. -/
def parse_domain (domain_value : Json) :
    Except RestServiceMetadataError (Option (List (String × String))) :=
  match domain_value with
  | .obj _ =>
    let is_code := ((domain_value.index "type").asStr.getD "") = "codedValue"
    if !is_code then .ok none
    else
      match (domain_value.index "codedValues").asArray with
      | none =>
        .error (.FieldParsing "codedValues value is not an object"
          (jsonRender (domain_value.index "codedValues")))
      | some coded_values =>
        (parse_coded_values (domain_value.index "codedValues") coded_values []).map some
  | _ => .ok none

/-- Model of `RestServiceField::new`. -/
def RestServiceField.new (field : Json) :
    Except RestServiceMetadataError RestServiceField :=
  match (field.index "name").asStr with
  | none => .error (.FieldParsing "No name found" (jsonRender field))
  | some field_name =>
    match (field.index "type").asStr with
    | none => .error (.FieldParsing "No type found" (jsonRender field))
    | some field_type =>
      match (field.index "alias").asStr with
      | none => .error (.FieldParsing "No alias found" (jsonRender field))
      | some field_alias =>
        match RestServiceFieldType.from_str field_type with
        | .error e => .error e
        | .ok field_type_enum =>
          match parse_domain (field.index "domain") with
          | .error e => .error e
          | .ok codes =>
            .ok { name := field_name, field_type := field_type_enum,
                  «alias» := field_alias, codes := codes }

/-- Model of `RestServiceField::for_geometry`. -/
def RestServiceField.for_geometry (name : String) : RestServiceField :=
  { name := name, field_type := .Geometry, «alias» := name, codes := none }

/-- The `match geo_type` tail of `parse_fields`: the geometry pseudo-fields
pushed after the attribute fields. -/
def geometry_pseudo_fields : RestServiceGeometryType → List RestServiceField
  | .Point => [RestServiceField.for_geometry "X", RestServiceField.for_geometry "Y"]
  | .Multipoint => [RestServiceField.for_geometry "POINTS"]
  | .Polygon => [RestServiceField.for_geometry "RINGS"]
  | .Polyline => [RestServiceField.for_geometry "PATHS"]
  | .Envelope => [RestServiceField.for_geometry "ENVELOPE"]
  | .None => []

/-- ASCII uppercase of one character (`str::to_uppercase` restricted to the
ASCII field names this service model carries). -/
def charToUpper (c : Char) : Char :=
  if 97 ≤ c.toNat && c.toNat ≤ 122 then Char.ofNat (c.toNat - 32) else c

/-- Model of `str::to_uppercase`, modelled character-wise. -/
def strToUpper (s : String) : String :=
  String.mk (s.data.map charToUpper)

/-- Model of `parse_fields` from src/metadata.rs. -/
def parse_fields (fields_json : List Json) (geo_type : RestServiceGeometryType) :
    Except RestServiceMetadataError (List RestServiceField) :=
  match fields_json.mapM RestServiceField.new with
  | .error e => .error e
  | .ok parsed =>
    let fields :=
      (parsed.filter (fun field => field.field_type != RestServiceFieldType.Geometry)).filter
        (fun field => strToUpper field.name != "SHAPE")
    .ok (fields ++ geometry_pseudo_fields geo_type)

/-- Model of `RestServiceMetadata` from src/metadata.rs (the fields the planner
reads). -/
structure RestServiceMetadata where
  url : String
  name : String
  source_count : Option Int
  max_record_count : Int
  pagination_enabled : Bool
  server_type : String
  geo_type : RestServiceGeometryType
  fields : List RestServiceField
  oid_field : Option RestServiceField
  max_min_oid : Option (Int × Int)
  source_spatial_reference : Option Int
  output_spatial_reference : Option Int
deriving DecidableEq

/-- Model of `RestServiceMetadata::scrape_count`. -/
def RestServiceMetadata.scrape_count (m : RestServiceMetadata) : Int :=
  if m.max_record_count ≤ 10000 then m.max_record_count else 10000

/-- Model of `RestServiceMetadata::is_table`. -/
def RestServiceMetadata.is_table (m : RestServiceMetadata) : Bool :=
  m.server_type == "TABLE"

/-- The error type of the planner (`Box<dyn Error>` narrowed to the errors
the planner can actually produce). -/
inductive QueriesError where
  | metadata : RestServiceMetadataError → QueriesError
  | spatial : String → QueriesError
deriving DecidableEq

/-- The rendered query URL of one chunk, modelled structurally: the path and
the ordered query parameters handed to `Url::parse_with_params` (the final
percent-encoded URL string is an injective rendering of this data). -/
structure ChunkQuery where
  path : String
  params : List (String × String)
deriving DecidableEq

/-- Model of `RestServiceMetadata::geometry_options`.  Rust evaluates the `unwrap_or`
argument eagerly, so the source spatial reference is demanded (and its
absence is an error) even when an output spatial reference is present. -/
def geometry_options (m : RestServiceMetadata) :
    Except String (List (String × String)) :=
  if m.is_table then .ok []
  else
    match m.source_spatial_reference with
    | none => .error "No source spatial reference and no output spatial reference specified"
    | some src =>
      .ok [("geometryType", m.geo_type.display),
           ("outSR", toString (m.output_spatial_reference.getD src))]

/-- Model of `RestServiceMetadata::pagination_query`. -/
def RestServiceMetadata.pagination_query (m : RestServiceMetadata)
    (query_index : Int) : Except QueriesError ChunkQuery :=
  match geometry_options m with
  | .error e => .error (.spatial e)
  | .ok geo =>
    .ok { path := m.url ++ "/query",
          params := [("where", "1=1"),
                     ("resultOffset", toString (query_index * m.scrape_count)),
                     ("resultRecordCount", toString m.scrape_count),
                     ("outFields", "*"),
                     ("f", "json")] ++ geo }

/-- Model of `RestServiceMetadata::oid_query`. -/
def RestServiceMetadata.oid_query (m : RestServiceMetadata)
    (query_index : Int) : Except QueriesError ChunkQuery :=
  match m.oid_field with
  | none => .error (.metadata .MissingOidField)
  | some oid_field =>
    match m.max_min_oid with
    | none => .error (.metadata .MissingOidField)
    | some max_min =>
      let lower_bound := max_min.2 + query_index * m.scrape_count
      let where_clause :=
        oid_field.name ++ " >= " ++ toString lower_bound ++ " and " ++
          oid_field.name ++ " <= " ++ toString (lower_bound + m.scrape_count - 1)
      match geometry_options m with
      | .error e => .error (.spatial e)
      | .ok geo =>
        .ok { path := m.url ++ "/query",
              params := [("where", where_clause), ("outFields", "*"), ("f", "json")] ++ geo }

/-- The branch taken inside the planner loop's body. -/
def RestServiceMetadata.chunk_query (m : RestServiceMetadata)
    (query_index : Int) : Except QueriesError ChunkQuery :=
  if m.pagination_enabled then m.pagination_query query_index
  else m.oid_query query_index

/-- The planner's `while remaining_records_count > 0` loop, with an explicit
iteration budget `fuel`; `ok none` means the budget was exhausted with the
loop still running (the Rust loop has performed `fuel` iterations and not
yet terminated). -/
def queriesAux (m : RestServiceMetadata) (remaining : Int) (query_index : Int)
    (fuel : Nat) : Except QueriesError (Option (List ChunkQuery)) :=
  if remaining > 0 then
    match fuel with
    | 0 => .ok none
    | Nat.succ fuel' =>
      match m.chunk_query query_index with
      | .error e => .error e
      | .ok q =>
        match queriesAux m
            (if remaining > m.scrape_count then remaining - m.scrape_count else 0)
            (query_index + 1) fuel' with
        | .error e => .error e
        | .ok none => .ok none
        | .ok (some qs) => .ok (some (q :: qs))
  else .ok (some [])

/-- Model of `RestServiceMetadata::queries`.  The loop budget `count.toNat` is enough
whenever the chunk size is at least one, in which case the result is never
`ok none`; with a non-positive chunk size and a positive count the Rust
loop diverges, which surfaces here as `ok none` for every budget. -/
def RestServiceMetadata.queries (m : RestServiceMetadata) :
    Except QueriesError (Option (List ChunkQuery)) :=
  if !m.pagination_enabled && m.oid_field.isNone then
    .error (.metadata .MissingOidField)
  else
    match m.source_count with
    | none => .error (.metadata (.MissingKey "count"))
    | some count => queriesAux m count 0 count.toNat

/-- Model of `ceil(count / chunk)`: the number of planner iterations for a positive
chunk size, used to state the planner theorems. -/
def numChunksZ (count chunk : Int) : Int := (count + chunk - 1) / chunk

/-! ## src/scraping.rs : record encoding, fetch and retry -/

/-- Model of `RestServiceScrapingError` from src/scraping.rs (`StatusCode` carried as
its numeric value). -/
inductive RestServiceScrapingError where
  | MissingKey : String → String → RestServiceScrapingError
  | InvalidResponse : Int → RestServiceScrapingError
  | InvalidJsonResponse : String → RestServiceScrapingError
  | ErrorJsonResponse : String → RestServiceScrapingError
  | UnknownJsonResponse : String → RestServiceScrapingError
  | TooManyRetires : Int → RestServiceScrapingError
  | InvalidFeature : String → RestServiceScrapingError
deriving DecidableEq

/-- Model of `convert_json_value`; the Rust signature is fallible but every arm
returns `Ok`, so the model is total. -/
def convert_json_value (json_value : Json) : String :=
  match json_value with
  | .null => ""
  | .bool b => strToUpper (toString b)
  | .num n => n.render
  | .str s => s
  | .arr xs => jsonRender (.arr xs)
  | .obj fields => jsonRender (.obj fields)

/-- Model of `convert_json_field` from src/scraping.rs. -/
def convert_json_field (field : RestServiceField) (json_value : Json) :
    List String :=
  match field.codes with
  | some codes =>
    let code := convert_json_value json_value
    match hashGet codes code with
    | some description => [code, description]
    | none => [code, ""]
  | none => [convert_json_value json_value]

/-- Outcome of scraping code that can also panic: the source indexes
`serde_json::Map`s, whose `Index` impl panics on a missing key. -/
inductive PRes (α : Type) where
  | ok : α → PRes α
  | err : RestServiceScrapingError → PRes α
  | panicked : PRes α
deriving DecidableEq

/-- Model of `serde_json::Map` indexing (`map[key]`), which panics on a missing
key. -/
def mapIndexP (m : List (String × Json)) (k : String) : PRes Json :=
  match mapGet m k with
  | none => .panicked
  | some v => .ok v

/-- Model of `extract_geometry` from src/scraping.rs. -/
def extract_geometry (feature : List (String × Json))
    (default_keys : Option (List String)) : PRes (List (String × Json)) :=
  match mapIndexP feature "geometry" with
  | .panicked => .panicked
  | .err e => .err e
  | .ok v =>
    match v.asObject with
    | some obj => .ok obj
    | none =>
      .ok ((default_keys.getD []).foldl
        (fun default_map key => mapInsert key (.str "") default_map) [])

/-- The conditional insertion of one envelope component: a component enters
`bounds_map` only when `as_f64` succeeds on it. -/
def insertBound (key : String) (v : Json) (bounds_map : List (String × Json)) :
    List (String × Json) :=
  match v.asF64 with
  | some n => mapInsert key (.num ⟨true, n.toF64Render⟩) bounds_map
  | none => bounds_map

/-- Model of `convert_geometry` from src/scraping.rs. -/
def convert_geometry (geo_type : RestServiceGeometryType)
    (feature : List (String × Json)) : PRes (List String) :=
  match geo_type with
  | .Point =>
    match extract_geometry feature (some ["x", "y"]) with
    | .panicked => .panicked
    | .err e => .err e
    | .ok geometry =>
      match mapIndexP geometry "x", mapIndexP geometry "y" with
      | .ok jx, .ok jy => .ok [convert_json_value jx, convert_json_value jy]
      | _, _ => .panicked
  | .Multipoint =>
    match extract_geometry feature (some ["points"]) with
    | .panicked => .panicked
    | .err e => .err e
    | .ok geometry =>
      match mapIndexP geometry "points" with
      | .ok jv => .ok [convert_json_value jv]
      | _ => .panicked
  | .Polyline =>
    match extract_geometry feature (some ["paths"]) with
    | .panicked => .panicked
    | .err e => .err e
    | .ok geometry =>
      match mapIndexP geometry "paths" with
      | .ok jv => .ok [convert_json_value jv]
      | _ => .panicked
  | .Polygon =>
    match extract_geometry feature (some ["rings"]) with
    | .panicked => .panicked
    | .err e => .err e
    | .ok geometry =>
      match mapIndexP geometry "rings" with
      | .ok jv => .ok [convert_json_value jv]
      | _ => .panicked
  | .Envelope =>
    match extract_geometry feature
        (some ["xmin", "ymin", "xmax", "ymax", "zmin", "zmax", "mmin", "mmax"]) with
    | .panicked => .panicked
    | .err e => .err e
    | .ok geometry =>
      match mapIndexP geometry "xmin", mapIndexP geometry "ymin",
            mapIndexP geometry "xmax", mapIndexP geometry "ymax",
            mapIndexP geometry "zmin", mapIndexP geometry "zmax",
            mapIndexP geometry "mmin", mapIndexP geometry "mmax" with
      | .ok vxmin, .ok vymin, .ok vxmax, .ok vymax,
        .ok vzmin, .ok vzmax, .ok vmmin, .ok vmmax =>
        let bounds_map :=
          insertBound "mmax" vmmax (insertBound "mmin" vmmin
            (insertBound "zmax" vzmax (insertBound "zmin" vzmin
              (insertBound "ymax" vymax (insertBound "xmax" vxmax
                (insertBound "ymin" vymin (insertBound "xmin" vxmin [])))))))
        .ok [convert_json_value (.obj bounds_map)]
      | _, _, _, _, _, _, _, _ => .panicked
  | .None => .ok []

/-- One envelope component as the amended claim C7 describes it: the value
bound in the flattened object for component key `k`, present exactly when
the source geometry holds a numeric value under `k`. -/
def envelopeBound (g : List (String × Json)) (k : String) : Option Json :=
  match mapGet g k with
  | some v =>
    match v.asF64 with
    | some nn => some (.num ⟨true, nn.toF64Render⟩)
    | none => none
  | none => none

/-- The Debug rendering (`format!("\x7b:?\x7d", feature)`) used in the
`MissingKey` error payload; its exact text matters to no claim. -/
def debugRender (feature : List (String × Json)) : String :=
  "Map " ++ jsonRender (.obj feature)

/-- The `for field in fields` loop inside `handle_record`. -/
def record_fields (attributes : List (String × Json)) :
    List RestServiceField → PRes (List String)
  | [] => .ok []
  | field :: rest =>
    if field.field_type == RestServiceFieldType.Geometry then
      record_fields attributes rest
    else
      match mapIndexP attributes field.name with
      | .ok v =>
        match record_fields attributes rest with
        | .ok vs => .ok (convert_json_field field v ++ vs)
        | r => r
      | _ => .panicked

/-- Model of `handle_record` from src/scraping.rs. -/
def handle_record (fields : List RestServiceField)
    (geo_type : RestServiceGeometryType) (feature : List (String × Json)) :
    PRes (List String) :=
  match mapIndexP feature "attributes" with
  | .ok av =>
    match av.asObject with
    | none => .err (.MissingKey "attributes" (debugRender feature))
    | some attributes =>
      match record_fields attributes fields with
      | .ok record =>
        match convert_geometry geo_type feature with
        | .ok geo_vals => .ok (record ++ geo_vals)
        | .err e => .err e
        | .panicked => .panicked
      | r => r
  | _ => .panicked

/-- Model of `str::replace("\"", "\"\"")`: double every double-quote character. -/
def doubleQuotes : List Char → List Char
  | [] => []
  | c :: rest =>
    if c = '"' then '"' :: '"' :: doubleQuotes rest else c :: doubleQuotes rest

/-- Model of `handle_csv_value` from src/scraping.rs. -/
def handle_csv_value (value : String) : String :=
  if value.data.any (fun chr => chr == '\r' || chr == '\n' || chr == ',' || chr == '"') then
    "\"" ++ String.mk (doubleQuotes value.data) ++ "\""
  else value

/-- A fetch-layer error: either a `RestServiceScrapingError` or any other
boxed error (reqwest network/decode errors), which the retry loop's
downcast cannot recognize. -/
inductive FetchError where
  | scraping : RestServiceScrapingError → FetchError
  | client : String → FetchError
deriving DecidableEq

/-- One HTTP exchange as seen by `try_query`: the status code, and the body
as parsed JSON — `none` when the body does not parse as JSON, in which case
reqwest's `json()` fails with a decode error. -/
structure HttpResponse where
  status : Int
  body : Option Json

/-- Model of `try_query` from src/scraping.rs. -/
def try_query (response : HttpResponse) :
    Except FetchError (List (String × Json)) :=
  if response.status ≠ 200 then
    .error (.scraping (.InvalidResponse response.status))
  else
    match response.body with
    | none => .error (.client "error decoding response body")
    | some json_response =>
      match json_response.asObject with
      | none => .error (.scraping (.InvalidJsonResponse (jsonRender json_response)))
      | some json_object =>
        if !(mapContains json_object "features") then
          if mapContains json_object "error" then
            .error (.scraping (.ErrorJsonResponse (jsonRender json_response)))
          else
            .error (.scraping (.UnknownJsonResponse (jsonRender json_response)))
        else .ok json_object

/-- Model of `decode_fetch_error`: on the four transient variants the attempt counter
is bumped and the loop continues (`Ok`); every other error — including any
non-`RestServiceScrapingError` that the downcast cannot see — is returned
unchanged, ending the retry loop. -/
def decode_fetch_error (attempts : Int) (error : FetchError) :
    Except FetchError Int :=
  match error with
  | .scraping (.InvalidResponse _) => .ok (attempts + 1)
  | .scraping (.InvalidJsonResponse _) => .ok (attempts + 1)
  | .scraping (.ErrorJsonResponse _) => .ok (attempts + 1)
  | .scraping (.UnknownJsonResponse _) => .ok (attempts + 1)
  | _ => .error error

/-- The retryable/terminal boundary drawn by `decode_fetch_error`: exactly
the four variants it matches continue the loop. -/
def is_transient : FetchError → Bool
  | .scraping (.InvalidResponse _) => true
  | .scraping (.InvalidJsonResponse _) => true
  | .scraping (.ErrorJsonResponse _) => true
  | .scraping (.UnknownJsonResponse _) => true
  | _ => false

/-- The body of `loop_until_successful`: `attempts` is the mutable counter
and `calls` the number of `try_query` calls issued so far, which also
indexes the per-attempt response stream.  Both outcomes carry the total
number of calls issued. -/
def loop_aux (responses : Nat → HttpResponse) (max_tries : Int)
    (attempts : Int) (calls : Nat) :
    Except (FetchError × Nat) ((List (String × Json)) × Nat) :=
  match try_query (responses calls) with
  | .ok obj => .ok (obj, calls + 1)
  | .error e =>
    match h : decode_fetch_error attempts e with
    | .error decode_error => .error (decode_error, calls + 1)
    | .ok attempts' =>
      if h2 : attempts' ≥ max_tries then
        .error (.scraping (.TooManyRetires max_tries), calls + 1)
      else loop_aux responses max_tries attempts' (calls + 1)
termination_by (max_tries - attempts).toNat
decreasing_by
  cases e with
  | client s => simp [decode_fetch_error] at h
  | scraping se => cases se <;> simp [decode_fetch_error] at h <;> omega

/-- Model of `loop_until_successful` from src/scraping.rs, with the number of issued
attempts reported alongside either outcome. -/
def loop_until_successful (responses : Nat → HttpResponse) (max_tries : Int) :
    Except (FetchError × Nat) ((List (String × Json)) × Nat) :=
  loop_aux responses max_tries 0 0

/-- Result of `fetch_query`: the CSV lines written to the chunk's temp file
plus the number of attempts issued, or a fetch/decoding error, or a panic
(the source `unwrap`s `features` being an array). -/
inductive FetchResult where
  | ok : List String → Nat → FetchResult
  | err : FetchError → Nat → FetchResult
  | panicked : Nat → FetchResult
deriving DecidableEq

/-- The `for feature_value in features` loop of `fetch_query`: each record
becomes one comma-joined CSV line. -/
def write_features (fields : List RestServiceField)
    (geo_type : RestServiceGeometryType) : List Json → PRes (List String)
  | [] => .ok []
  | feature_value :: rest =>
    match feature_value.asObject with
    | none => .err (.InvalidFeature (jsonRender feature_value))
    | some feature =>
      match handle_record fields geo_type feature with
      | .ok record =>
        let record_transformed := String.intercalate "," (record.map handle_csv_value)
        match write_features fields geo_type rest with
        | .ok lines => .ok (record_transformed :: lines)
        | r => r
      | .err e => .err e
      | .panicked => .panicked

/-- Model of `fetch_query` from src/scraping.rs. -/
def fetch_query (responses : Nat → HttpResponse)
    (fields : List RestServiceField) (geo_type : RestServiceGeometryType)
    (max_tries : Int) : FetchResult :=
  match loop_until_successful responses max_tries with
  | .error (e, calls) => .err e calls
  | .ok (json_response_object, calls) =>
    match mapGet json_response_object "features" with
    | none => .panicked calls
    | some fv =>
      match fv.asArray with
      | none => .panicked calls
      | some features =>
        match write_features fields geo_type features with
        | .ok lines => .ok lines calls
        | .err e => .err (.scraping e) calls
        | .panicked => .panicked calls

/-! ## src/main.rs : concurrent harvest, ordered drain and GeoJSON assembly -/

/-- The output `File`: its byte content and the write cursor.  `write!`
overwrites from the cursor and extends the file; `seek(Current, -1)` moves
the cursor back one byte. -/
structure FileState where
  content : List Char
  pos : Nat
deriving DecidableEq

/-- Model of `write!(file, s)` at the current cursor: overwrite, extending at the
end. -/
def writeStr (fs : FileState) (s : String) : FileState :=
  { content := fs.content.take fs.pos ++ s.data ++ fs.content.drop (fs.pos + s.data.length),
    pos := fs.pos + s.data.length }

/-- Model of `file.seek(SeekFrom::Current(-1))`. -/
def seekBack1 (fs : FileState) : FileState :=
  { fs with pos := fs.pos - 1 }

/-- One fetched chunk as parsed back by `GeoJson::from_reader`: the
optional `crs` foreign member and the features, both already rendered. -/
structure ChunkCollection where
  crs : Option String
  features : List String
deriving DecidableEq

/-- The body of the result-drain loop in `main` for one chunk: write the
FeatureCollection opening when the file is still empty (with the chunk's
`crs` block, if any), then every feature followed by a comma; then — still
inside the per-chunk loop — seek back one byte and write the closing
`]\x7d`. -/
def drainChunk (fs : FileState) (chunk : ChunkCollection) : FileState :=
  let fs1 :=
    if fs.pos == 0 then
      let a := writeStr fs "\x7b\"type\":\"FeatureCollection\","
      let b :=
        match chunk.crs with
        | some crs => writeStr a ("\"crs\":" ++ crs ++ ",")
        | none => a
      writeStr b "\"features\":["
    else fs
  let fs2 := chunk.features.foldl (fun f feature => writeStr f (feature ++ ",")) fs1
  writeStr (seekBack1 fs2) "]\x7d"

/-- The whole drain loop over the chunk results, starting from the freshly
created (empty) output file. -/
def drainAll (chunks : List ChunkCollection) : FileState :=
  chunks.foldl drainChunk { content := [], pos := 0 }

/-- The fetch tasks' completion events: `order` lists the task indices in
the order their fetches complete, each paired with its result.  This is the
runtime's state when the drain loop starts. -/
def arrivalsOf (order : List Nat) (res : Nat → ChunkCollection) :
    List (Nat × ChunkCollection) :=
  order.map (fun i => (i, res i))

/-- Model of `handle.await` for task `i`: the result delivered for that task, found
among the completion events; the value obtained does not depend on when the
task completed. -/
def awaitTask (arrivals : List (Nat × ChunkCollection)) (i : Nat) :
    Option ChunkCollection :=
  (arrivals.find? (fun p => p.1 == i)).map Prod.snd

/-- The drain loop `for handle in fetch_worker_handles`: tasks are awaited
in spawn order `0,1,…,n−1`, which is the planner's chunk order. -/
def awaitAll (n : Nat) (arrivals : List (Nat × ChunkCollection)) :
    List (Option ChunkCollection) :=
  (List.range n).map (awaitTask arrivals)

/-- The bytes produced by draining all `n` tasks of a completed run (a
missing arrival cannot happen once every task completed; it is defaulted
harmlessly to an empty collection). -/
def assembleRun (n : Nat) (arrivals : List (Nat × ChunkCollection)) :
    FileState :=
  drainAll ((awaitAll n arrivals).map (fun o => o.getD { crs := none, features := [] }))

/-! ## The RFC4180 reader of claim C8 -/

/-- Collapse each doubled double-quote: the inverse step a standard CSV
reader applies inside a quoted field. -/
def undoubleQuotes : List Char → List Char
  | [] => []
  | [c] => [c]
  | c :: d :: rest =>
    if c = '"' ∧ d = '"' then '"' :: undoubleQuotes rest
    else c :: undoubleQuotes (d :: rest)

/-- Modelled from the spec: the "standard RFC4180 CSV reader" applied to a
single encoded field — a field wrapped in double quotes has the wrapping
quotes stripped and each doubled internal quote collapsed; any other field
is taken verbatim. -/
def rfc4180DecodeField (s : String) : String :=
  match s.data with
  | c :: rest =>
    if c = '"' ∧ rest ≠ [] ∧ rest.getLast? = some '"' then
      String.mk (undoubleQuotes rest.dropLast)
    else s
  | _ => s

/-! ## Concrete instances used by witnesses and counterexamples -/

/-- A plain OID field. -/
def oidField0 : RestServiceField :=
  { name := "OBJECTID", field_type := .OID, «alias» := "OBJECTID", codes := none }

/-- A paginated table service: count 5, chunk size 2. -/
def mPagT : RestServiceMetadata :=
  { url := "http://host/svc", name := "svc", source_count := some 5,
    max_record_count := 2, pagination_enabled := true, server_type := "TABLE",
    geo_type := .None, fields := [oidField0], oid_field := some oidField0,
    max_min_oid := none, source_spatial_reference := none,
    output_spatial_reference := none }

/-- An OID-chunked service with a sparse identifier space: one record, OID
bounds `[0, 5000]`, chunk size 1000. -/
def mOidSparse : RestServiceMetadata :=
  { url := "http://host/svc", name := "svc", source_count := some 1,
    max_record_count := 1000, pagination_enabled := false,
    server_type := "TABLE", geo_type := .None, fields := [oidField0],
    oid_field := some oidField0, max_min_oid := some (5000, 0),
    source_spatial_reference := none, output_spatial_reference := none }

/-- Offset pagination unsupported, OID field present, identifier bounds
absent, and an empty record set. -/
def mNoBounds0 : RestServiceMetadata :=
  { url := "http://host/svc", name := "svc", source_count := some 0,
    max_record_count := 1000, pagination_enabled := false,
    server_type := "TABLE", geo_type := .None, fields := [oidField0],
    oid_field := some oidField0, max_min_oid := none,
    source_spatial_reference := none, output_spatial_reference := none }

/-- Offset pagination unsupported and the OID field absent. -/
def mNoOid : RestServiceMetadata :=
  { mNoBounds0 with oid_field := none }

/-- Offset pagination unsupported, identifier bounds absent, one record. -/
def mNoBounds1 : RestServiceMetadata :=
  { mNoBounds0 with source_count := some 1 }

/-- An OID-chunked service with densely packed identifiers: count 5, OID
bounds `[0, 4]`, chunk size 2. -/
def mOidDense : RestServiceMetadata :=
  { url := "http://host/svc", name := "svc", source_count := some 5,
    max_record_count := 2, pagination_enabled := false,
    server_type := "TABLE", geo_type := .None, fields := [oidField0],
    oid_field := some oidField0, max_min_oid := some (4, 0),
    source_spatial_reference := none, output_spatial_reference := none }

/-- A paginated table service advertising `maxRecordCount = 0` while
holding one record: the planner loop never terminates on it. -/
def mZeroChunk : RestServiceMetadata :=
  { mPagT with max_record_count := 0, source_count := some 1 }

/-! ## Lemmas about the CSV encoder -/

theorem undoubleQuotes_cons_ne (c : Char) (l : List Char) (hc : c ≠ '"') :
    undoubleQuotes (c :: l) = c :: undoubleQuotes l := by
  cases l with
  | nil => rfl
  | cons d rest => simp [undoubleQuotes, hc]

theorem undoubleQuotes_quote_quote (l : List Char) :
    undoubleQuotes ('"' :: '"' :: l) = '"' :: undoubleQuotes l := by
  simp [undoubleQuotes]

theorem undouble_double (l : List Char) :
    undoubleQuotes (doubleQuotes l) = l := by
  induction l with
  | nil => rfl
  | cons c rest ih =>
    by_cases hc : c = '"'
    · subst hc
      rw [doubleQuotes, if_pos rfl, undoubleQuotes_quote_quote, ih]
    · rw [doubleQuotes, if_neg hc, undoubleQuotes_cons_ne c _ hc, ih]

theorem doubleQuotes_no_quote (l : List Char)
    (h : ∀ c ∈ l, c ≠ '"') : doubleQuotes l = l := by
  induction l with
  | nil => rfl
  | cons c rest ih =>
    rw [doubleQuotes, if_neg (h c (List.mem_cons_self c rest))]
    rw [ih (fun d hd => h d (List.mem_cons_of_mem c hd))]

/-- The quoting condition checked by `handle_csv_value`, as the claim's
list of characters. -/
theorem handle_csv_value_condition (v : String) :
    (v.data.any (fun chr => chr == '\r' || chr == '\n' || chr == ',' || chr == '"') = true) ↔
      ∃ c ∈ v.data, c = ',' ∨ c = '"' ∨ c = '\r' ∨ c = '\n' := by
  rw [List.any_eq_true]
  constructor
  · rintro ⟨c, hc, hp⟩
    refine ⟨c, hc, ?_⟩
    simp only [Bool.or_eq_true, beq_iff_eq] at hp
    tauto
  · rintro ⟨c, hc, hp⟩
    refine ⟨c, hc, ?_⟩
    simp only [Bool.or_eq_true, beq_iff_eq]
    tauto

theorem doubleQuotes_length (l : List Char) :
    l.length ≤ (doubleQuotes l).length := by
  induction l with
  | nil => simp [doubleQuotes]
  | cons c rest ih =>
    rw [doubleQuotes]
    split <;> simp <;> omega

theorem rfc4180DecodeField_cons (c : Char) (rest : List Char) (s : String)
    (h : s.data = c :: rest) :
    rfc4180DecodeField s =
      if c = '"' ∧ rest ≠ [] ∧ rest.getLast? = some '"' then
        String.mk (undoubleQuotes rest.dropLast)
      else s := by
  unfold rfc4180DecodeField
  rw [h]

theorem rfc4180DecodeField_nil (s : String) (h : s.data = []) :
    rfc4180DecodeField s = s := by
  unfold rfc4180DecodeField
  rw [h]

/-- C8: the CSV encoder wraps the value in double quotes with each internal
double quote doubled exactly when the value contains a comma, a double
quote, a carriage return or a line feed, and returns it unchanged
otherwise; decoding the encoded value with the standard RFC4180 reader
recovers the original value. -/
theorem C8_csv_quoting (v : String) :
    (handle_csv_value v = v ↔ ¬ ∃ c ∈ v.data, c = ',' ∨ c = '"' ∨ c = '\r' ∨ c = '\n') ∧
    ((∃ c ∈ v.data, c = ',' ∨ c = '"' ∨ c = '\r' ∨ c = '\n') →
      handle_csv_value v = "\"" ++ String.mk (doubleQuotes v.data) ++ "\"") ∧
    rfc4180DecodeField (handle_csv_value v) = v := by
  by_cases hP : ∃ c ∈ v.data, c = ',' ∨ c = '"' ∨ c = '\r' ∨ c = '\n'
  · have hcond := (handle_csv_value_condition v).2 hP
    have hq : handle_csv_value v = "\"" ++ String.mk (doubleQuotes v.data) ++ "\"" := by
      rw [handle_csv_value, if_pos hcond]
    have hdata : (("\"" : String) ++ String.mk (doubleQuotes v.data) ++ "\"").data =
        '"' :: (doubleQuotes v.data ++ ['"']) := by
      simp [String.data_append]
    refine ⟨?_, fun _ => hq, ?_⟩
    · constructor
      · intro heq
        exfalso
        have hde : (handle_csv_value v).data = v.data := by rw [heq]
        rw [hq, hdata] at hde
        have hlen := congrArg List.length hde
        simp only [List.length_cons, List.length_append, List.length_singleton] at hlen
        have := doubleQuotes_length v.data
        omega
      · intro hn
        exact absurd hP hn
    · rw [hq, rfc4180DecodeField_cons '"' (doubleQuotes v.data ++ ['"']) _ hdata]
      have hne : doubleQuotes v.data ++ ['"'] ≠ [] := by simp
      have hlast : (doubleQuotes v.data ++ ['"']).getLast? = some '"' := by
        simp [List.getLast?_concat]
      rw [if_pos ⟨rfl, hne, hlast⟩]
      rw [List.dropLast_concat, undouble_double]
  · have hcond : (v.data.any
        (fun chr => chr == '\r' || chr == '\n' || chr == ',' || chr == '"')) = false := by
      cases hany : v.data.any
          (fun chr => chr == '\r' || chr == '\n' || chr == ',' || chr == '"') with
      | false => rfl
      | true => exact absurd ((handle_csv_value_condition v).1 hany) hP
    have hid : handle_csv_value v = v := by
      rw [handle_csv_value, hcond]
      simp
    refine ⟨iff_of_true hid hP, fun h => absurd h hP, ?_⟩
    rw [hid]
    rcases hd : v.data with _ | ⟨c, rest⟩
    · exact rfc4180DecodeField_nil v hd
    · have hc : c ≠ '"' := by
        intro hcq
        exact hP ⟨c, by rw [hd]; exact List.mem_cons_self c rest, by tauto⟩
      rw [rfc4180DecodeField_cons c rest v hd]
      rw [if_neg (by tauto)]

/-- Witness for C8 at a value needing quoting and one not. -/
theorem C8_csv_quoting_witness :
    rfc4180DecodeField (handle_csv_value "a,\"b\nc") = "a,\"b\nc" ∧
    handle_csv_value "plain" = "plain" :=
  ⟨(C8_csv_quoting "a,\"b\nc").2.2, ((C8_csv_quoting "plain").1).2 (by decide)⟩

/-! ## Lemmas about the retry loop -/

theorem decode_fetch_error_transient (a : Int) (e : FetchError)
    (h : is_transient e = true) : decode_fetch_error a e = .ok (a + 1) := by
  cases e with
  | client s => simp [is_transient] at h
  | scraping se => cases se <;> simp_all [is_transient, decode_fetch_error]

theorem decode_fetch_error_fatal (a : Int) (e : FetchError)
    (h : is_transient e = false) : decode_fetch_error a e = .error e := by
  cases e with
  | client s => rfl
  | scraping se => cases se <;> simp_all [is_transient, decode_fetch_error]

theorem loop_aux_ok (responses : Nat → HttpResponse) (mt a : Int) (calls : Nat)
    (obj : List (String × Json)) (h : try_query (responses calls) = .ok obj) :
    loop_aux responses mt a calls = .ok (obj, calls + 1) := by
  unfold loop_aux
  rw [h]

theorem loop_aux_fatal (responses : Nat → HttpResponse) (mt a : Int) (calls : Nat)
    (e : FetchError) (h : try_query (responses calls) = .error e)
    (hf : is_transient e = false) :
    loop_aux responses mt a calls = .error (e, calls + 1) := by
  unfold loop_aux
  rw [h]
  split
  · rename_i e' heq
    cases heq
  · rename_i a' heq
    injection heq with h1
    subst h1
    split
    · rename_i e' heq2
      rw [decode_fetch_error_fatal a e hf] at heq2
      injection heq2 with h2
      rw [h2]
    · rename_i a2 heq2
      rw [decode_fetch_error_fatal a e hf] at heq2
      cases heq2

theorem loop_aux_retry (responses : Nat → HttpResponse) (mt a : Int) (calls : Nat)
    (e : FetchError) (h : try_query (responses calls) = .error e)
    (ht : is_transient e = true) :
    loop_aux responses mt a calls =
      if a + 1 ≥ mt then .error (.scraping (.TooManyRetires mt), calls + 1)
      else loop_aux responses mt (a + 1) (calls + 1) := by
  conv_lhs => unfold loop_aux
  rw [h]
  split
  · rename_i e' heq
    cases heq
  · rename_i a' heq
    injection heq with h1
    subst h1
    split
    · rename_i e' heq2
      rw [decode_fetch_error_transient a e ht] at heq2
      cases heq2
    · rename_i a2 heq2
      rw [decode_fetch_error_transient a e ht] at heq2
      injection heq2 with h2
      subst h2
      by_cases hge : a + 1 ≥ mt
      · rw [dif_pos hge, if_pos hge]
      · rw [dif_neg hge, if_neg hge]

/-- C3: with `max_tries = 3`, a fetcher whose every attempt fails
transiently issues exactly 3 attempts and then reports the
exhausted-retries failure; a fetcher whose first attempt fails transiently
and whose second succeeds reports success after exactly 2 attempts. -/
theorem C3_retry_cap (responses₁ responses₂ : Nat → HttpResponse)
    (obj : List (String × Json))
    (h1 : ∀ i, ∃ e, try_query (responses₁ i) = .error e ∧ is_transient e = true)
    (h2e : ∃ e, try_query (responses₂ 0) = .error e ∧ is_transient e = true)
    (h2ok : try_query (responses₂ 1) = .ok obj) :
    loop_until_successful responses₁ 3 = .error (.scraping (.TooManyRetires 3), 3) ∧
    loop_until_successful responses₂ 3 = .ok (obj, 2) := by
  constructor
  · obtain ⟨e0, he0, ht0⟩ := h1 0
    obtain ⟨e1, he1, ht1⟩ := h1 1
    obtain ⟨e2, he2, ht2⟩ := h1 2
    have s0 := loop_aux_retry responses₁ 3 0 0 e0 he0 ht0
    rw [if_neg (by norm_num)] at s0
    norm_num at s0
    have s1 := loop_aux_retry responses₁ 3 1 1 e1 he1 ht1
    rw [if_neg (by norm_num)] at s1
    norm_num at s1
    have s2 := loop_aux_retry responses₁ 3 2 2 e2 he2 ht2
    rw [if_pos (by norm_num)] at s2
    norm_num at s2
    rw [loop_until_successful, s0, s1, s2]
  · obtain ⟨e0, he0, ht0⟩ := h2e
    have t0 := loop_aux_retry responses₂ 3 0 0 e0 he0 ht0
    rw [if_neg (by norm_num)] at t0
    norm_num at t0
    have t1 := loop_aux_ok responses₂ 3 1 1 obj h2ok
    norm_num at t1
    rw [loop_until_successful, t0, t1]

/-- Witness for C3: a stream of permanent HTTP 500s, and a stream failing
once with a 500 then delivering an empty feature collection. -/
theorem C3_retry_cap_witness :
    loop_until_successful (fun _ => ⟨500, none⟩) 3 =
      .error (.scraping (.TooManyRetires 3), 3) ∧
    loop_until_successful
      (fun i => if i = 0 then ⟨500, none⟩ else ⟨200, some (.obj [("features", .arr [])])⟩) 3 =
      .ok ([("features", .arr [])], 2) :=
  C3_retry_cap _ _ _ (fun _ => ⟨.scraping (.InvalidResponse 500), rfl, rfl⟩)
    ⟨.scraping (.InvalidResponse 500), rfl, rfl⟩ rfl

/-- C4 counterexample: a response with HTTP 200 whose body is not JSON at
all.  `try_query` surfaces reqwest's decode error, which the retry loop's
downcast does not recognize: the run fails after exactly one attempt, so an
unparsable response body is not classified as retryable. -/
theorem C4_counterexample :
    loop_until_successful (fun _ => ⟨200, none⟩) 3 =
      .error (.client "error decoding response body", 1) ∧
    is_transient (.client "error decoding response body") = false := by
  refine ⟨?_, rfl⟩
  rw [loop_until_successful,
    loop_aux_fatal (fun _ => ⟨200, none⟩) 3 0 0
      (.client "error decoding response body") rfl rfl]

/-- C4 (amended): on each attempt, a non-success HTTP status, a JSON body
that is not an object, and a parsed body carrying a service `error` object
are classified retryable; a parsed body with a `features` member (even
empty) is terminal success; a body that does not parse as JSON at all is a
client decode error that the retry loop does not recognize, failing the
chunk on that attempt; and a malformed individual feature in a successful
response is fatal, issued no further attempts. -/
theorem C4_classification :
    (∀ r : HttpResponse, r.status ≠ 200 →
      try_query r = .error (.scraping (.InvalidResponse r.status)) ∧
      is_transient (.scraping (.InvalidResponse r.status)) = true) ∧
    (∀ (r : HttpResponse) (j : Json), r.status = 200 → r.body = some j →
      j.asObject = none →
      try_query r = .error (.scraping (.InvalidJsonResponse (jsonRender j))) ∧
      is_transient (.scraping (.InvalidJsonResponse (jsonRender j))) = true) ∧
    (∀ (r : HttpResponse) (fields : List (String × Json)), r.status = 200 →
      r.body = some (.obj fields) → mapContains fields "features" = false →
      mapContains fields "error" = true →
      try_query r = .error (.scraping (.ErrorJsonResponse (jsonRender (.obj fields)))) ∧
      is_transient (.scraping (.ErrorJsonResponse (jsonRender (.obj fields)))) = true) ∧
    (∀ (r : HttpResponse) (fields : List (String × Json)), r.status = 200 →
      r.body = some (.obj fields) → mapContains fields "features" = true →
      try_query r = .ok fields) ∧
    (∀ r : HttpResponse, r.status = 200 → r.body = none →
      try_query r = .error (.client "error decoding response body") ∧
      is_transient (.client "error decoding response body") = false) ∧
    (∀ (responses : Nat → HttpResponse) (mt : Int) (e : FetchError),
      try_query (responses 0) = .error e → is_transient e = false →
      loop_until_successful responses mt = .error (e, 1)) ∧
    (∀ (responses : Nat → HttpResponse) (flds : List RestServiceField)
        (geo : RestServiceGeometryType) (mt : Int)
        (obj : List (String × Json)) (calls : Nat) (fv : Json) (rest : List Json),
      loop_until_successful responses mt = .ok (obj, calls) →
      mapGet obj "features" = some (.arr (fv :: rest)) → fv.asObject = none →
      fetch_query responses flds geo mt =
        .err (.scraping (.InvalidFeature (jsonRender fv))) calls) := by
  refine ⟨?_, ?_, ?_, ?_, ?_, ?_, ?_⟩
  · intro r h
    exact ⟨by unfold try_query; rw [if_pos h], rfl⟩
  · intro r j h200 hb hobj
    refine ⟨?_, rfl⟩
    unfold try_query
    rw [if_neg (not_ne_iff.mpr h200), hb]
    simp only [hobj]
  · intro r fields h200 hb hf he
    refine ⟨?_, rfl⟩
    unfold try_query
    rw [if_neg (not_ne_iff.mpr h200), hb]
    simp only [Json.asObject, hf, he, Bool.not_false, if_true]
  · intro r fields h200 hb hf
    unfold try_query
    rw [if_neg (not_ne_iff.mpr h200), hb]
    simp [Json.asObject, hf]
  · intro r h200 hb
    refine ⟨?_, rfl⟩
    unfold try_query
    rw [if_neg (not_ne_iff.mpr h200), hb]
  · intro responses mt e h hf
    rw [loop_until_successful, loop_aux_fatal responses mt 0 0 e h hf]
  · intro responses flds geo mt obj calls fv rest hloop hfeat hfv
    unfold fetch_query
    rw [hloop]
    simp only [hfeat, Json.asArray]
    unfold write_features
    simp only [hfv]

/-- Witness for the amended C4 at concrete responses of every class. -/
theorem C4_classification_witness :
    try_query ⟨404, none⟩ = .error (.scraping (.InvalidResponse 404)) ∧
    try_query ⟨200, some (.str "nope")⟩ =
      .error (.scraping (.InvalidJsonResponse "\"nope\"")) ∧
    try_query ⟨200, some (.obj [("error", .obj [])])⟩ =
      .error (.scraping (.ErrorJsonResponse "\x7b\"error\":\x7b\x7d\x7d")) ∧
    try_query ⟨200, some (.obj [("features", .arr [])])⟩ =
      .ok [("features", .arr [])] ∧
    fetch_query (fun _ => ⟨200, some (.obj [("features", .arr [.str "bad"])])⟩)
      [] .None 3 = .err (.scraping (.InvalidFeature "\"bad\"")) 1 := by
  obtain ⟨p1, p2, p3, p4, p5, p6, p7⟩ := C4_classification
  refine ⟨(p1 ⟨404, none⟩ (by decide)).1, (p2 ⟨200, _⟩ (.str "nope") rfl rfl rfl).1,
    (p3 ⟨200, _⟩ [("error", .obj [])] rfl rfl rfl rfl).1,
    p4 ⟨200, _⟩ [("features", .arr [])] rfl rfl rfl, ?_⟩
  have hloop : loop_until_successful
      (fun _ => (⟨200, some (.obj [("features", .arr [.str "bad"])])⟩ : HttpResponse)) 3 =
      .ok ([("features", .arr [.str "bad"])], 1) :=
    loop_aux_ok _ 3 0 0 _ rfl
  exact p7 _ [] .None 3 _ 1 (.str "bad") [] hloop rfl rfl

/-! ## Lemmas about the query planner -/

theorem scrape_count_pos (m : RestServiceMetadata)
    (h : 1 ≤ m.max_record_count) : 1 ≤ m.scrape_count := by
  unfold RestServiceMetadata.scrape_count
  split <;> omega

theorem numChunksZ_nonpos {n c : Int} (hc : 1 ≤ c) (hn : n ≤ 0) :
    numChunksZ n c ≤ 0 := by
  unfold numChunksZ
  rcases le_or_lt 0 (n + c - 1) with h | h
  · have := Int.ediv_eq_zero_of_lt h (show n + c - 1 < c by omega)
    omega
  · have := Int.ediv_neg' h (show (0 : Int) < c by omega)
    omega

theorem numChunksZ_pos {n c : Int} (hc : 1 ≤ c) (hn : 0 < n) :
    1 ≤ numChunksZ n c := by
  unfold numChunksZ
  rw [Int.le_ediv_iff_mul_le (by omega)]
  omega

theorem numChunksZ_step {n c : Int} (hc : 1 ≤ c) (hn : 0 < n) :
    numChunksZ n c = numChunksZ (if n > c then n - c else 0) c + 1 := by
  by_cases h : n > c
  · rw [if_pos h]
    unfold numChunksZ
    have he : n + c - 1 = (n - c + c - 1) + 1 * c := by ring
    rw [he, Int.add_mul_ediv_right _ _ (by omega : c ≠ 0)]
  · rw [if_neg h]
    unfold numChunksZ
    have h1 : n + c - 1 = (n - 1) + 1 * c := by ring
    rw [h1, Int.add_mul_ediv_right _ _ (by omega : c ≠ 0)]
    have h2 : (n - 1) / c = 0 :=
      Int.ediv_eq_zero_of_lt (by omega) (show n - 1 < c by omega)
    have h3 : (0 + c - 1) / c = 0 :=
      Int.ediv_eq_zero_of_lt (by omega) (show 0 + c - 1 < c by omega)
    omega

theorem le_numChunksZ_mul {n c : Int} (hc : 1 ≤ c) : n ≤ numChunksZ n c * c := by
  unfold numChunksZ
  have h := Int.ediv_add_emod (n + c - 1) c
  have hr := Int.emod_lt_of_pos (n + c - 1) (by omega : (0 : Int) < c)
  have hq : (n + c - 1) / c * c = c * ((n + c - 1) / c) := mul_comm _ _
  linarith

theorem chunk_cover {n c : Int} (hc : 1 ≤ c) (k : Int) (hk0 : 0 ≤ k)
    (hkn : k < numChunksZ n c * c) :
    ∃ i : Nat, (i : Int) < numChunksZ n c ∧ (i : Int) * c ≤ k ∧
      k < (i : Int) * c + c ∧
      ∀ j : Nat, (j : Int) * c ≤ k → k < (j : Int) * c + c → j = i := by
  have hc0 : (0 : Int) < c := by omega
  have hq0 : 0 ≤ k / c := Int.ediv_nonneg hk0 (by omega)
  have hqcast : ((k / c).toNat : Int) = k / c := Int.toNat_of_nonneg hq0
  have hmul : k / c * c ≤ k := Int.ediv_mul_le k (by omega)
  have hmod := Int.ediv_add_emod k c
  have hmodlt := Int.emod_lt_of_pos k hc0
  have hup : k < k / c * c + c := by
    have : c * (k / c) = k / c * c := mul_comm _ _
    linarith
  refine ⟨(k / c).toNat, ?_, by rw [hqcast]; exact hmul, by rw [hqcast]; exact hup, ?_⟩
  · rw [hqcast]
    by_contra hcon
    push_neg at hcon
    have : numChunksZ n c * c ≤ k / c * c :=
      mul_le_mul_of_nonneg_right hcon (by omega)
    linarith
  · intro j hj1 hj2
    have hjq : (j : Int) = k / c := by
      have hle : (j : Int) ≤ k / c := (Int.le_ediv_iff_mul_le hc0).mpr hj1
      have hlt : k / c < (j : Int) + 1 := by
        rw [Int.ediv_lt_iff_lt_mul hc0]
        linarith
      omega
    omega

theorem queriesAux_step (m : RestServiceMetadata) (remaining qi : Int)
    (fuel : Nat) (hr : remaining > 0) :
    queriesAux m remaining qi (fuel + 1) =
      match m.chunk_query qi with
      | .error e => .error e
      | .ok q =>
        match queriesAux m
            (if remaining > m.scrape_count then remaining - m.scrape_count else 0)
            (qi + 1) fuel with
        | .error e => .error e
        | .ok none => .ok none
        | .ok (some qs) => .ok (some (q :: qs)) := by
  conv_lhs => unfold queriesAux
  rw [if_pos hr]

theorem queriesAux_done (m : RestServiceMetadata) (remaining qi : Int)
    (fuel : Nat) (hr : ¬ remaining > 0) :
    queriesAux m remaining qi fuel = .ok (some []) := by
  unfold queriesAux
  rw [if_neg hr]

theorem queriesAux_not_none (m : RestServiceMetadata) (hc : 1 ≤ m.scrape_count) :
    ∀ (fuel : Nat) (remaining query_index : Int), remaining.toNat ≤ fuel →
      queriesAux m remaining query_index fuel ≠ .ok none := by
  intro fuel
  induction fuel with
  | zero =>
    intro remaining qi hle
    have h0 : ¬ remaining > 0 := by omega
    simp [queriesAux, h0]
  | succ fuel ih =>
    intro remaining qi hle
    by_cases hr : remaining > 0
    · unfold queriesAux
      rw [if_pos hr]
      cases hq : m.chunk_query qi with
      | error e => simp
      | ok q =>
        have hle' : (if remaining > m.scrape_count then
            remaining - m.scrape_count else 0).toNat ≤ fuel := by
          split <;> omega
        cases hrec : queriesAux m
            (if remaining > m.scrape_count then remaining - m.scrape_count else 0)
            (qi + 1) fuel with
        | error e => simp [hrec]
        | ok o =>
          cases o with
          | none => exact absurd hrec (ih _ (qi + 1) hle')
          | some qs => simp [hrec]
    · unfold queriesAux
      rw [if_neg hr]
      simp

theorem queriesAux_spec (m : RestServiceMetadata) (hc : 1 ≤ m.scrape_count)
    (q : Int → ChunkQuery) (hq : ∀ i, m.chunk_query i = .ok (q i)) :
    ∀ (fuel : Nat) (remaining query_index : Int), remaining.toNat ≤ fuel →
      queriesAux m remaining query_index fuel =
        .ok (some ((List.range (numChunksZ remaining m.scrape_count).toNat).map
          (fun k => q (query_index + Int.ofNat k)))) := by
  intro fuel
  induction fuel with
  | zero =>
    intro remaining qi hle
    have h0 : ¬ remaining > 0 := by omega
    have hN : (numChunksZ remaining m.scrape_count).toNat = 0 := by
      have := numChunksZ_nonpos (n := remaining) hc (by omega)
      omega
    rw [queriesAux_done m remaining qi 0 h0, hN]
    rfl
  | succ fuel ih =>
    intro remaining qi hle
    by_cases hr : remaining > 0
    · rw [queriesAux_step m remaining qi fuel hr, hq qi]
      have hle' : (if remaining > m.scrape_count then
          remaining - m.scrape_count else 0).toNat ≤ fuel := by
        split <;> omega
      rw [ih _ (qi + 1) hle']
      have hstep : (numChunksZ remaining m.scrape_count).toNat =
          (numChunksZ (if remaining > m.scrape_count then
            remaining - m.scrape_count else 0) m.scrape_count).toNat + 1 := by
        have h1 := numChunksZ_step (n := remaining) (c := m.scrape_count) hc hr
        have h2 : 0 ≤ numChunksZ (if remaining > m.scrape_count then
            remaining - m.scrape_count else 0) m.scrape_count := by
          by_cases hgt : remaining > m.scrape_count
          · rw [if_pos hgt]
            exact le_trans zero_le_one (numChunksZ_pos hc (by omega))
          · rw [if_neg hgt]
            unfold numChunksZ
            exact Int.ediv_nonneg (by omega) (by omega)
        omega
      rw [hstep, List.range_succ_eq_map]
      refine congrArg (fun l => Except.ok (some l)) ?_
      rw [List.map_cons, List.map_map]
      refine congrArg₂ List.cons (by norm_num [Int.ofNat_zero]) ?_
      refine List.map_congr_left ?_
      intro k hk
      simp only [Function.comp_apply]
      refine congrArg q ?_
      simp only [Int.ofNat_eq_natCast, Nat.succ_eq_add_one]
      push_cast
      ring
    · rw [queriesAux_done m remaining qi (fuel + 1) hr]
      have hN : (numChunksZ remaining m.scrape_count).toNat = 0 := by
        have := numChunksZ_nonpos (n := remaining) hc (by omega)
        omega
      rw [hN]
      rfl

theorem queries_spec (m : RestServiceMetadata) (n : Int) (hc : 1 ≤ m.scrape_count)
    (hcnt : m.source_count = some n)
    (hpre : m.pagination_enabled = true ∨ m.oid_field ≠ none)
    (q : Int → ChunkQuery) (hq : ∀ i, m.chunk_query i = .ok (q i)) :
    m.queries = .ok (some ((List.range (numChunksZ n m.scrape_count).toNat).map
      (fun k => q (Int.ofNat k)))) := by
  unfold RestServiceMetadata.queries
  have hguard : (!m.pagination_enabled && m.oid_field.isNone) = false := by
    rcases hpre with hp | ho
    · simp [hp]
    · cases hov : m.oid_field with
      | none => exact absurd hov ho
      | some f => simp [hov]
  rw [hguard]
  simp only [Bool.false_eq_true, if_false, hcnt]
  rw [queriesAux_spec m hc q hq n.toNat n 0 le_rfl]
  simp only [zero_add]

/-- C5 counterexample: offset pagination unsupported, OID field present,
identifier bounds absent, record count zero — `queries` returns the empty
chunk sequence instead of an error. -/
theorem C5_counterexample :
    mNoBounds0.pagination_enabled = false ∧ mNoBounds0.max_min_oid = none ∧
    mNoBounds0.queries = .ok (some []) :=
  ⟨rfl, rfl, rfl⟩

/-- C5 (amended): when offset pagination is unsupported, a missing OID
field always fails planning, and missing identifier bounds fail planning
whenever the record count is positive; with a zero record count and
missing bounds the planner returns the empty sequence without error. -/
theorem C5_planning_guard :
    (∀ m : RestServiceMetadata, m.pagination_enabled = false → m.oid_field = none →
      m.queries = .error (.metadata .MissingOidField)) ∧
    (∀ (m : RestServiceMetadata) (f : RestServiceField) (n : Int),
      m.pagination_enabled = false → m.oid_field = some f → m.max_min_oid = none →
      m.source_count = some n → 0 < n →
      m.queries = .error (.metadata .MissingOidField)) := by
  constructor
  · intro m hp ho
    unfold RestServiceMetadata.queries
    rw [hp, ho]
    simp
  · intro m f n hp ho hb hcnt hn
    unfold RestServiceMetadata.queries
    rw [hp, ho, hcnt]
    simp only [Bool.not_false, Option.isNone_some, Bool.and_false, Bool.false_eq_true,
      if_false]
    have hfuel : n.toNat = (n.toNat - 1) + 1 := by omega
    rw [hfuel, queriesAux_step m n 0 _ hn]
    unfold RestServiceMetadata.chunk_query RestServiceMetadata.oid_query
    rw [hp, ho, hb]
    simp

/-- Witness for the amended C5: one descriptor lacking the OID field, one
lacking only the bounds but holding a record. -/
theorem C5_planning_guard_witness :
    mNoOid.queries = .error (.metadata .MissingOidField) ∧
    mNoBounds1.queries = .error (.metadata .MissingOidField) := by
  obtain ⟨p1, p2⟩ := C5_planning_guard
  exact ⟨p1 mNoOid rfl rfl, p2 mNoBounds1 oidField0 1 rfl rfl rfl rfl one_pos⟩

theorem queriesAux_diverge (m : RestServiceMetadata) (hc : m.scrape_count ≤ 0)
    (hbuild : ∀ i, ∃ q, m.chunk_query i = .ok q) :
    ∀ (fuel : Nat) (remaining qi : Int), 0 < remaining →
      queriesAux m remaining qi fuel = .ok none := by
  intro fuel
  induction fuel with
  | zero =>
    intro remaining qi hr
    unfold queriesAux
    rw [if_pos hr]
  | succ fuel ih =>
    intro remaining qi hr
    obtain ⟨qq, hq⟩ := hbuild qi
    rw [queriesAux_step m remaining qi fuel hr, hq]
    have hgt : remaining > m.scrape_count := by omega
    rw [if_pos hgt, ih (remaining - m.scrape_count) (qi + 1) (by omega)]

/-- C10: the planner loop terminates whenever the chunk size
`min(maxRecordCount, 10000)` is at least 1 — `queries` never reports a
still-running loop; with a non-positive `maxRecordCount` and a positive
record count the remaining-records counter never decreases, and the loop
runs forever: every iteration budget ends with the loop still running. -/
theorem C10_planner_termination :
    (∀ m : RestServiceMetadata, 1 ≤ m.scrape_count → m.queries ≠ .ok none) ∧
    (∀ (m : RestServiceMetadata) (n : Int) (gs : List (String × String)),
      m.max_record_count ≤ 0 → m.source_count = some n → 0 < n →
      m.pagination_enabled = true → geometry_options m = .ok gs →
      (∀ fuel : Nat, queriesAux m n 0 fuel = .ok none) ∧ m.queries = .ok none) := by
  constructor
  · intro m hc
    unfold RestServiceMetadata.queries
    cases hg : (!m.pagination_enabled && m.oid_field.isNone) with
    | true => simp
    | false =>
      simp only [Bool.false_eq_true, if_false]
      cases hcnt : m.source_count with
      | none => simp
      | some n => exact queriesAux_not_none m hc n.toNat n 0 le_rfl
  · intro m n gs hm hcnt hn hpag hgeo
    have hsc : m.scrape_count ≤ 0 := by
      unfold RestServiceMetadata.scrape_count
      split <;> omega
    have hbuild : ∀ i, ∃ q, m.chunk_query i = .ok q := by
      intro i
      unfold RestServiceMetadata.chunk_query RestServiceMetadata.pagination_query
      rw [hpag, hgeo]
      exact ⟨_, rfl⟩
    have hdiv := fun fuel => queriesAux_diverge m hsc hbuild fuel n 0 hn
    refine ⟨hdiv, ?_⟩
    unfold RestServiceMetadata.queries
    rw [hpag, hcnt]
    simp only [Bool.not_true, Bool.false_and, Bool.false_eq_true, if_false]
    exact hdiv n.toNat

/-- Witness for C10: a well-formed chunk size terminates; a zero chunk size
with one record never does. -/
theorem C10_planner_termination_witness :
    mPagT.queries ≠ .ok none ∧
    queriesAux mZeroChunk 1 0 7 = .ok none ∧ mZeroChunk.queries = .ok none := by
  obtain ⟨p1, p2⟩ := C10_planner_termination
  have h2 := p2 mZeroChunk 1 [] (by decide) rfl one_pos rfl rfl
  exact ⟨p1 mPagT (by decide), h2.1 7, h2.2⟩

/-- C1 counterexample: a sparse identifier space (1 record, chunk 1000, OID
bounds `[0, 5000]`).  The planner emits the single range `[0, 999]`, whose
union does not reach `max = 5000`: the identifier ranges do not cover
`[min, max]`. -/
theorem C1_counterexample :
    mOidSparse.queries = .ok (some [⟨"http://host/svc/query",
      [("where", "OBJECTID >= 0 and OBJECTID <= 999"),
       ("outFields", "*"), ("f", "json")]⟩]) ∧
    mOidSparse.max_min_oid = some (5000, 0) ∧
    ¬ ((0 : Int) + 0 * 1000 ≤ 5000 ∧
      (5000 : Int) ≤ 0 + 0 * 1000 + 1000 - 1) := by
  refine ⟨rfl, rfl, ?_⟩
  norm_num

/-- C1 (amended): with a known count `n ≥ 0`, chunk size
`c = min(maxRecordCount, 10000) ≥ 1` and renderable geometry options, the
planner emits exactly `ceil(n / c)` chunk queries in ascending order.
Under offset pagination, chunk `i` carries `resultOffset = i*c` and
`resultRecordCount = c`, and the offset ranges `[i*c, (i+1)*c)` tile
`[0, n)` with no gaps and no overlaps.  Otherwise chunk `i` carries the
inclusive identifier range `[min + i*c, min + (i+1)*c − 1]`; these ranges
tile `[min, min + ceil(n/c)*c)` without gaps or overlaps, and they cover
`[min, max]` when `max < min + ceil(n/c)*c` (in particular for densely
packed identifiers) — but not for every descriptor, see the
counterexample. -/
theorem C1_chunk_plan :
    (∀ (m : RestServiceMetadata) (n : Int) (gs : List (String × String)),
      m.pagination_enabled = true → m.source_count = some n → 0 ≤ n →
      1 ≤ m.scrape_count → geometry_options m = .ok gs →
      ∃ qs : List ChunkQuery, m.queries = .ok (some qs) ∧
        qs.length = (numChunksZ n m.scrape_count).toNat ∧
        (∀ (i : Nat) (hi : i < qs.length), qs.get ⟨i, hi⟩ =
          ⟨m.url ++ "/query",
           [("where", "1=1"),
            ("resultOffset", toString ((i : Int) * m.scrape_count)),
            ("resultRecordCount", toString m.scrape_count),
            ("outFields", "*"), ("f", "json")] ++ gs⟩) ∧
        (∀ k : Int, 0 ≤ k → k < n → ∃ i : Nat, i < qs.length ∧
          (i : Int) * m.scrape_count ≤ k ∧
          k < (i : Int) * m.scrape_count + m.scrape_count ∧
          ∀ j : Nat, (j : Int) * m.scrape_count ≤ k →
            k < (j : Int) * m.scrape_count + m.scrape_count → j = i)) ∧
    (∀ (m : RestServiceMetadata) (n : Int) (f : RestServiceField) (mx mn : Int)
        (gs : List (String × String)),
      m.pagination_enabled = false → m.source_count = some n → 0 ≤ n →
      1 ≤ m.scrape_count → m.oid_field = some f → m.max_min_oid = some (mx, mn) →
      geometry_options m = .ok gs →
      ∃ qs : List ChunkQuery, m.queries = .ok (some qs) ∧
        qs.length = (numChunksZ n m.scrape_count).toNat ∧
        (∀ (i : Nat) (hi : i < qs.length), qs.get ⟨i, hi⟩ =
          ⟨m.url ++ "/query",
           [("where",
              f.name ++ " >= " ++ toString (mn + (i : Int) * m.scrape_count)
                ++ " and " ++ f.name ++ " <= "
                ++ toString (mn + (i : Int) * m.scrape_count + m.scrape_count - 1)),
            ("outFields", "*"), ("f", "json")] ++ gs⟩) ∧
        (∀ k : Int, mn ≤ k → k < mn + numChunksZ n m.scrape_count * m.scrape_count →
          ∃ i : Nat, i < qs.length ∧
            mn + (i : Int) * m.scrape_count ≤ k ∧
            k ≤ mn + (i : Int) * m.scrape_count + m.scrape_count - 1 ∧
            ∀ j : Nat, mn + (j : Int) * m.scrape_count ≤ k →
              k ≤ mn + (j : Int) * m.scrape_count + m.scrape_count - 1 → j = i) ∧
        (mx < mn + numChunksZ n m.scrape_count * m.scrape_count →
          ∀ k : Int, mn ≤ k → k ≤ mx → ∃ i : Nat, i < qs.length ∧
            mn + (i : Int) * m.scrape_count ≤ k ∧
            k ≤ mn + (i : Int) * m.scrape_count + m.scrape_count - 1)) := by
  constructor
  · intro m n gs hpag hcnt hn hc hgeo
    have hq : ∀ i : Int, m.chunk_query i = .ok
        ⟨m.url ++ "/query",
         [("where", "1=1"),
          ("resultOffset", toString (i * m.scrape_count)),
          ("resultRecordCount", toString m.scrape_count),
          ("outFields", "*"), ("f", "json")] ++ gs⟩ := by
      intro i
      unfold RestServiceMetadata.chunk_query RestServiceMetadata.pagination_query
      rw [hpag, hgeo]
      rfl
    have hspec := queries_spec m n hc hcnt (Or.inl hpag) _ hq
    refine ⟨_, hspec, ?_, ?_, ?_⟩
    · simp
    · intro i hi
      simp only [List.length_map, List.length_range] at hi
      simp [List.get_map, List.get_range, Int.ofNat_eq_natCast]
    · intro k hk0 hkn
      have hkn' : k < numChunksZ n m.scrape_count * m.scrape_count :=
        lt_of_lt_of_le hkn (le_numChunksZ_mul hc)
      obtain ⟨i, hiN, h1, h2, huniq⟩ := chunk_cover hc k hk0 hkn'
      refine ⟨i, ?_, h1, h2, huniq⟩
      simp only [List.length_map, List.length_range]
      omega
  · intro m n f mx mn gs hpag hcnt hn hc hoid hbounds hgeo
    have hq : ∀ i : Int, m.chunk_query i = .ok
        ⟨m.url ++ "/query",
         [("where",
            f.name ++ " >= " ++ toString (mn + i * m.scrape_count)
              ++ " and " ++ f.name ++ " <= "
              ++ toString (mn + i * m.scrape_count + m.scrape_count - 1)),
          ("outFields", "*"), ("f", "json")] ++ gs⟩ := by
      intro i
      unfold RestServiceMetadata.chunk_query RestServiceMetadata.oid_query
      rw [hpag, hoid, hbounds, hgeo]
      rfl
    have hspec := queries_spec m n hc hcnt (Or.inr (by rw [hoid]; simp)) _ hq
    refine ⟨_, hspec, ?_, ?_, ?_, ?_⟩
    · simp
    · intro i hi
      simp only [List.length_map, List.length_range] at hi
      simp [List.get_map, List.get_range, Int.ofNat_eq_natCast]
    · intro k hk1 hk2
      obtain ⟨i, hiN, h1, h2, huniq⟩ :=
        chunk_cover (n := n) hc (k - mn) (by omega) (by omega)
      refine ⟨i, ?_, by omega, by omega, ?_⟩
      · simp only [List.length_map, List.length_range]
        omega
      · intro j hj1 hj2
        exact huniq j (by omega) (by omega)
    · intro hmx k hk1 hk2
      obtain ⟨i, hiN, h1, h2, -⟩ :=
        chunk_cover (n := n) hc (k - mn) (by omega) (by omega)
      refine ⟨i, ?_, by omega, by omega⟩
      simp only [List.length_map, List.length_range]
      omega

/-- Witness for the amended C1: a paginated service and a dense OID
service, both with 5 records in chunks of 2, plan 3 chunks. -/
theorem C1_chunk_plan_witness :
    (∃ qs : List ChunkQuery, mPagT.queries = .ok (some qs) ∧ qs.length = 3) ∧
    (∃ qs : List ChunkQuery, mOidDense.queries = .ok (some qs) ∧ qs.length = 3) := by
  obtain ⟨p1, p2⟩ := C1_chunk_plan
  obtain ⟨qs1, h1, hl1, -, -⟩ :=
    p1 mPagT 5 [] rfl rfl (by norm_num) (by decide) rfl
  obtain ⟨qs2, h2, hl2, -, -, -⟩ :=
    p2 mOidDense 5 oidField0 4 0 [] rfl rfl (by norm_num) (by decide) rfl rfl rfl
  exact ⟨⟨qs1, h1, by rw [hl1]; decide⟩, ⟨qs2, h2, by rw [hl2]; decide⟩⟩

/-- C6: the drain loop writes the FeatureCollection opening only when the
file is empty (so exactly once), but it seeks back and writes the closing
`]\x7d` after every chunk, inside the loop.  With a single chunk the file
is the well-formed FeatureCollection; with two chunks the second chunk's
features are appended after the already-written closing and the closing is
written again, so the output is not the well-formed merged document. -/
theorem C6_drain_eval :
    (drainAll [⟨none, ["\x7b\"a\":1\x7d"]⟩]).content =
      ("\x7b\"type\":\"FeatureCollection\",\"features\":[\x7b\"a\":1\x7d]\x7d").data ∧
    (drainAll [⟨none, ["\x7b\"a\":1\x7d"]⟩, ⟨none, ["\x7b\"b\":2\x7d"]⟩]).content =
      ("\x7b\"type\":\"FeatureCollection\",\"features\":[\x7b\"a\":1\x7d]\x7d\x7b\"b\":2\x7d]\x7d").data ∧
    (drainAll [⟨none, ["\x7b\"a\":1\x7d"]⟩, ⟨none, ["\x7b\"b\":2\x7d"]⟩]).content ≠
      ("\x7b\"type\":\"FeatureCollection\",\"features\":[\x7b\"a\":1\x7d,\x7b\"b\":2\x7d]\x7d").data := by
  refine ⟨rfl, rfl, by decide⟩

theorem find_arrival (res : Nat → ChunkCollection) (i : Nat) :
    ∀ order : List Nat, i ∈ order →
      (arrivalsOf order res).find? (fun p => p.1 == i) = some (i, res i) := by
  intro order
  induction order with
  | nil => intro h; cases h
  | cons j t ih =>
    intro hmem
    unfold arrivalsOf
    rw [List.map_cons]
    by_cases hj : j = i
    · subst hj
      simp [List.find?]
    · have hmem' : i ∈ t := by
        rcases List.mem_cons.mp hmem with h | h
        · exact absurd h.symm hj
        · exact h
      have hrec := ih hmem'
      unfold arrivalsOf at hrec
      simp only [List.find?]
      simp only [show ((j : Nat) == i) = false from by simp [hj]]
      exact hrec

/-- C2: the drain loop awaits the fetch tasks in spawn (planner) order, and
each await returns that task's own result, so both the consumed result
sequence and the assembled output bytes are the same for every completion
order of the fetches. -/
theorem C2_order_independence (n : Nat) (res : Nat → ChunkCollection)
    (order : List Nat) (hperm : order.Perm (List.range n)) :
    awaitAll n (arrivalsOf order res) = awaitAll n (arrivalsOf (List.range n) res) ∧
    assembleRun n (arrivalsOf order res) = assembleRun n (arrivalsOf (List.range n) res) := by
  have hawait : ∀ l : List Nat, (∀ i, i ∈ List.range n → i ∈ l) →
      awaitAll n (arrivalsOf l res) = (List.range n).map (fun i => some (res i)) := by
    intro l hl
    unfold awaitAll
    refine List.map_congr_left ?_
    intro i hi
    unfold awaitTask
    rw [find_arrival res i l (hl i hi)]
    rfl
  have h1 := hawait order (fun i hi => (hperm.mem_iff).mpr hi)
  have h2 := hawait (List.range n) (fun i hi => hi)
  have heq := h1.trans h2.symm
  refine ⟨heq, ?_⟩
  unfold assembleRun
  rw [heq]

/-- Witness for C2 with two tasks completing in reversed order. -/
theorem C2_order_independence_witness :
    awaitAll 2 (arrivalsOf [1, 0] (fun i => ⟨none, [toString i]⟩)) =
      awaitAll 2 (arrivalsOf (List.range 2) (fun i => ⟨none, [toString i]⟩)) ∧
    assembleRun 2 (arrivalsOf [1, 0] (fun i => ⟨none, [toString i]⟩)) =
      assembleRun 2 (arrivalsOf (List.range 2) (fun i => ⟨none, [toString i]⟩)) :=
  C2_order_independence 2 _ [1, 0] (by decide)

/-! ## Lemmas about map insertion and the envelope flattening -/

theorem mapGet_mapInsert (key k : String) (v : Json) (m : List (String × Json)) :
    mapGet (mapInsert key v m) k = if key = k then some v else mapGet m k := by
  induction m with
  | nil => simp [mapInsert, mapGet]
  | cons p t ih =>
    obtain ⟨k', v'⟩ := p
    unfold mapInsert
    by_cases h1 : stringLt key k' = true
    · rw [if_pos h1]
      by_cases hkk : key = k
      · subst hkk
        simp [mapGet]
      · simp [mapGet, hkk]
    · rw [if_neg h1]
      by_cases h2 : key = k'
      · subst h2
        rw [if_pos rfl]
        by_cases hkk : key = k
        · subst hkk
          simp [mapGet]
        · simp [mapGet, hkk]
      · rw [if_neg h2]
        by_cases h3 : k' = k
        · subst h3
          simp [mapGet, h2]
        · simp [mapGet, h3, ih]

theorem mapGet_insertBound (key k : String) (v : Json) (m : List (String × Json)) :
    mapGet (insertBound key v m) k =
      if key = k then
        match v.asF64 with
        | some nn => some (.num ⟨true, nn.toF64Render⟩)
        | none => mapGet m k
      else mapGet m k := by
  unfold insertBound
  cases hv : v.asF64 with
  | some nn => simp [mapGet_mapInsert, hv]
  | none => simp [hv]

/-- C7 counterexample: the field schema appends a single `ENVELOPE`
pseudo-field, not eight columns; the encoder flattens an Envelope geometry
into a single value, the compact JSON object of the present numeric
components. -/
theorem C7_counterexample :
    parse_fields [] .Envelope = .ok [RestServiceField.for_geometry "ENVELOPE"] ∧
    (geometry_pseudo_fields .Envelope).length = 1 ∧
    convert_geometry .Envelope
      [("attributes", .obj []),
       ("geometry", .obj [("mmax", .null), ("mmin", .null), ("xmax", .num ⟨true, "3.5"⟩),
         ("xmin", .num ⟨true, "1.5"⟩), ("ymax", .num ⟨true, "4.5"⟩),
         ("ymin", .num ⟨true, "2.5"⟩), ("zmax", .null), ("zmin", .null)])] =
      .ok ["\x7b\"xmax\":3.5,\"xmin\":1.5,\"ymax\":4.5,\"ymin\":2.5\x7d"] :=
  ⟨rfl, rfl, by decide⟩

/-- C7 (amended): in CSV mode a feature's Envelope geometry is flattened
into the single appended `ENVELOPE` column whose value is the compact JSON
object binding exactly those of the eight component keys `xmin, ymin,
xmax, ymax, zmin, zmax, mmin, mmax` whose source value is numeric — each
optional component contributes a binding only when present as a number
(the source panics when a component key is missing entirely). -/
theorem C7_envelope_flattening (feature g : List (String × Json))
    (x1 x2 x3 x4 x5 x6 x7 x8 : Json)
    (hg : mapGet feature "geometry" = some (.obj g))
    (h1 : mapGet g "xmin" = some x1) (h2 : mapGet g "ymin" = some x2)
    (h3 : mapGet g "xmax" = some x3) (h4 : mapGet g "ymax" = some x4)
    (h5 : mapGet g "zmin" = some x5) (h6 : mapGet g "zmax" = some x6)
    (h7 : mapGet g "mmin" = some x7) (h8 : mapGet g "mmax" = some x8) :
    ∃ bm, convert_geometry .Envelope feature = .ok [jsonRender (.obj bm)] ∧
      ∀ k, mapGet bm k =
        if k ∈ ["mmax", "mmin", "xmax", "xmin", "ymax", "ymin", "zmax", "zmin"]
        then envelopeBound g k else none := by
  have hext : extract_geometry feature
      (some ["xmin", "ymin", "xmax", "ymax", "zmin", "zmax", "mmin", "mmax"]) = .ok g := by
    simp [extract_geometry, mapIndexP, hg, Json.asObject]
  have e1 : mapIndexP g "xmin" = .ok x1 := by simp [mapIndexP, h1]
  have e2 : mapIndexP g "ymin" = .ok x2 := by simp [mapIndexP, h2]
  have e3 : mapIndexP g "xmax" = .ok x3 := by simp [mapIndexP, h3]
  have e4 : mapIndexP g "ymax" = .ok x4 := by simp [mapIndexP, h4]
  have e5 : mapIndexP g "zmin" = .ok x5 := by simp [mapIndexP, h5]
  have e6 : mapIndexP g "zmax" = .ok x6 := by simp [mapIndexP, h6]
  have e7 : mapIndexP g "mmin" = .ok x7 := by simp [mapIndexP, h7]
  have e8 : mapIndexP g "mmax" = .ok x8 := by simp [mapIndexP, h8]
  simp only [convert_geometry, hext, e1, e2, e3, e4, e5, e6, e7, e8]
  refine ⟨_, rfl, ?_⟩
  intro k
  simp only [mapGet_insertBound]
  rcases eq_or_ne k "mmax" with hk | k1
  · subst hk
    cases hx : x8.asF64 <;> simp [envelopeBound, h8, hx, mapGet]
  rcases eq_or_ne k "mmin" with hk | k2
  · subst hk
    cases hx : x7.asF64 <;> simp [envelopeBound, h7, hx, mapGet]
  rcases eq_or_ne k "zmax" with hk | k3
  · subst hk
    cases hx : x6.asF64 <;> simp [envelopeBound, h6, hx, mapGet]
  rcases eq_or_ne k "zmin" with hk | k4
  · subst hk
    cases hx : x5.asF64 <;> simp [envelopeBound, h5, hx, mapGet]
  rcases eq_or_ne k "ymax" with hk | k5
  · subst hk
    cases hx : x4.asF64 <;> simp [envelopeBound, h4, hx, mapGet]
  rcases eq_or_ne k "xmax" with hk | k6
  · subst hk
    cases hx : x3.asF64 <;> simp [envelopeBound, h3, hx, mapGet]
  rcases eq_or_ne k "ymin" with hk | k7
  · subst hk
    cases hx : x2.asF64 <;> simp [envelopeBound, h2, hx, mapGet]
  rcases eq_or_ne k "xmin" with hk | k8
  · subst hk
    cases hx : x1.asF64 <;> simp [envelopeBound, h1, hx, mapGet]
  simp [mapGet, k1.symm, k2.symm, k3.symm, k4.symm, k5.symm, k6.symm, k7.symm, k8.symm,
    k1, k2, k3, k4, k5, k6, k7, k8]

/-- Witness for the amended C7 at a geometry with two numeric and six null
components. -/
theorem C7_envelope_flattening_witness :
    ∃ bm, convert_geometry .Envelope
      [("geometry", .obj [("mmax", .null), ("mmin", .null), ("xmax", .null),
        ("xmin", .num ⟨false, "7"⟩), ("ymax", .null), ("ymin", .num ⟨true, "2.5"⟩),
        ("zmax", .null), ("zmin", .null)])] = .ok [jsonRender (.obj bm)] ∧
      ∀ k, mapGet bm k =
        if k ∈ ["mmax", "mmin", "xmax", "xmin", "ymax", "ymin", "zmax", "zmin"]
        then envelopeBound [("mmax", .null), ("mmin", .null), ("xmax", .null),
          ("xmin", .num ⟨false, "7"⟩), ("ymax", .null), ("ymin", .num ⟨true, "2.5"⟩),
          ("zmax", .null), ("zmin", .null)] k else none :=
  C7_envelope_flattening _ _ _ _ _ _ _ _ _ _ rfl rfl rfl rfl rfl rfl rfl rfl rfl

/-- C9: parsing the field schema drops every server field whose type is
Geometry and every field whose name uppercases to `SHAPE`, and appends the
geometry pseudo-fields for the service's geometry kind (`X`,`Y` for Point;
`POINTS`, `PATHS`, `RINGS` or `ENVELOPE` otherwise) after all remaining
attribute fields; the record encoder additionally skips Geometry-typed
fields when emitting a row, so the dropped fields reach no output row. -/
theorem C9_field_schema (fields_json : List Json)
    (geo_type : RestServiceGeometryType) (fs : List RestServiceField)
    (h : parse_fields fields_json geo_type = .ok fs) :
    ∃ parsed attrs, fields_json.mapM RestServiceField.new = .ok parsed ∧
      attrs = (parsed.filter
          (fun fld => fld.field_type != RestServiceFieldType.Geometry)).filter
        (fun fld => strToUpper fld.name != "SHAPE") ∧
      fs = attrs ++ geometry_pseudo_fields geo_type ∧
      (∀ fld ∈ attrs, fld.field_type ≠ .Geometry ∧ strToUpper fld.name ≠ "SHAPE") ∧
      (∀ fld ∈ parsed, fld.field_type ≠ .Geometry → strToUpper fld.name ≠ "SHAPE" →
        fld ∈ attrs) ∧
      ((geometry_pseudo_fields .Point).map RestServiceField.name = ["X", "Y"] ∧
        (geometry_pseudo_fields .Multipoint).map RestServiceField.name = ["POINTS"] ∧
        (geometry_pseudo_fields .Polyline).map RestServiceField.name = ["PATHS"] ∧
        (geometry_pseudo_fields .Polygon).map RestServiceField.name = ["RINGS"] ∧
        (geometry_pseudo_fields .Envelope).map RestServiceField.name = ["ENVELOPE"] ∧
        geometry_pseudo_fields .None = []) ∧
      (∀ (attributes : List (String × Json)) (rest : List RestServiceField)
          (fld : RestServiceField), fld.field_type = .Geometry →
        record_fields attributes (fld :: rest) = record_fields attributes rest) := by
  unfold parse_fields at h
  cases hm : fields_json.mapM RestServiceField.new with
  | error e =>
    rw [hm] at h
    cases h
  | ok parsed =>
    rw [hm] at h
    injection h with h
    refine ⟨parsed, _, rfl, rfl, h.symm, ?_, ?_, ⟨rfl, rfl, rfl, rfl, rfl, rfl⟩, ?_⟩
    · intro fld hf
      rw [List.mem_filter] at hf
      obtain ⟨hf1, hf2⟩ := hf
      rw [List.mem_filter] at hf1
      refine ⟨?_, ?_⟩
      · simpa using hf1.2
      · simpa using hf2
    · intro fld hp hg hs
      rw [List.mem_filter]
      refine ⟨?_, by simpa using hs⟩
      rw [List.mem_filter]
      exact ⟨hp, by simpa using hg⟩
    · intro attributes rest fld hg
      conv_lhs => rw [record_fields]
      rw [if_pos (by simp [hg])]

/-- Witness for C9: a schema with a Geometry-typed field, a field named
`Shape` and an OID field, on a Point service. -/
theorem C9_field_schema_witness :
    ∃ parsed attrs,
      [Json.obj [("alias", Json.str "G"), ("name", Json.str "G"),
         ("type", Json.str "esriFieldTypeGeometry")],
       Json.obj [("alias", Json.str "S"), ("name", Json.str "Shape"),
         ("type", Json.str "esriFieldTypeString")],
       Json.obj [("alias", Json.str "ID"), ("name", Json.str "ID"),
         ("type", Json.str "esriFieldTypeOID")]].mapM RestServiceField.new = .ok parsed ∧
      attrs = (parsed.filter
          (fun fld => fld.field_type != RestServiceFieldType.Geometry)).filter
        (fun fld => strToUpper fld.name != "SHAPE") ∧
      [({ name := "ID", field_type := .OID, «alias» := "ID", codes := none } :
          RestServiceField),
        RestServiceField.for_geometry "X", RestServiceField.for_geometry "Y"] =
        attrs ++ geometry_pseudo_fields .Point ∧
      (∀ fld ∈ attrs, fld.field_type ≠ .Geometry ∧ strToUpper fld.name ≠ "SHAPE") := by
  obtain ⟨parsed, attrs, hm, ha, hfs, hattr, -, -, -⟩ :=
    C9_field_schema
      [Json.obj [("alias", Json.str "G"), ("name", Json.str "G"),
         ("type", Json.str "esriFieldTypeGeometry")],
       Json.obj [("alias", Json.str "S"), ("name", Json.str "Shape"),
         ("type", Json.str "esriFieldTypeString")],
       Json.obj [("alias", Json.str "ID"), ("name", Json.str "ID"),
         ("type", Json.str "esriFieldTypeOID")]] .Point
      [{ name := "ID", field_type := .OID, «alias» := "ID", codes := none },
       RestServiceField.for_geometry "X", RestServiceField.for_geometry "Y"] rfl
  exact ⟨parsed, attrs, hm, ha, hfs, hattr⟩

end Arcgis
